import Mathlib

/-!
Shallow embedding of the go-render response-rendering package (render.go,
second revision: the package-level API whose functions the claims cite,
plus the first revision's Redirect method). Modelling conventions:

* Go byte slices and byte buffers hold Lean Strings; buffer identity is a
  Nat id handed out by the pool.
* net/http's ResponseWriter is a record of the pending header map, the
  status line, the accumulated body and an event log recording, in order,
  every header mutation, status write and body write the code performs.
* encoding/json and encoding/xml marshalling lives outside this repository,
  so a value to be marshalled is represented by its two possible outcomes:
  the compact form (Marshal) and the two-space-indented form
  (MarshalIndent with empty line prefix and a two-space indent string).
* html/template bodies are post-parse ASTs of literal text, a dot action
  (the binding, HTML-escaped on output) and nullary function calls, which
  is exactly the fragment the layout/yield mechanism of this package
  manipulates; the walk result handed to createTemplate is the list of
  regular files (relative path paired with parsed body) in walk order.
-/

namespace GoRender

/-- Source constant: the Content-Type header name. -/
def ContentType : String := "Content-Type"

/-- Source constant: the Content-Length header name. -/
def ContentLength : String := "Content-Length"

/-- Source constant: media type for raw byte output. -/
def ContentBinary : String := "application/octet-stream"

/-- Source constant: media type for plain-text output. -/
def ContentText : String := "text/plain"

/-- Source constant: media type for JSON output. -/
def ContentJSON : String := "application/json"

/-- Source constant: media type for HTML output. -/
def ContentHTML : String := "text/html"

/-- Source constant: media type for XML output. -/
def ContentXML : String := "text/xml"

/-- Source constant: charset appended when none is configured. -/
def defaultCharset : String := "UTF-8"

/-- One observable action performed on the response writer. -/
inductive Ev where
  | hset (k v : String)
  | hdel (k : String)
  | wstatus (s : Int)
  | wbody (b : String)
deriving DecidableEq

/-- The net/http ResponseWriter: pending header map, whether the status
line has been written, the written status, the header snapshot taken when
the status line was written, the body bytes, and the event log. -/
structure ResponseWriter where
  header : List (String × String)
  wroteHeader : Bool
  status : Int
  sent : List (String × String)
  body : String
  log : List Ev
deriving DecidableEq

/-- Header map update: replace any existing entry for the key. -/
def setPairs (h : List (String × String)) (k v : String) : List (String × String) :=
  (h.filter fun p => p.1 != k) ++ [(k, v)]

/-- Header().Set. -/
def headerSet (w : ResponseWriter) (k v : String) : ResponseWriter :=
  { w with header := setPairs w.header k v, log := w.log ++ [Ev.hset k v] }

/-- Header().Del. -/
def headerDel (w : ResponseWriter) (k : String) : ResponseWriter :=
  { w with header := w.header.filter (fun p => p.1 != k), log := w.log ++ [Ev.hdel k] }

/-- Header().Get: first value for the key, empty string when absent. -/
def headerGet (w : ResponseWriter) (k : String) : String :=
  ((w.header.find? fun p => p.1 == k).map Prod.snd).getD ""

/-- WriteHeader: the first call fixes the status and snapshots the header
map; later calls are ignored by net/http (the event is still logged). -/
def writeHeader (w : ResponseWriter) (s : Int) : ResponseWriter :=
  if w.wroteHeader then { w with log := w.log ++ [Ev.wstatus s] }
  else { w with wroteHeader := true, status := s, sent := w.header,
                log := w.log ++ [Ev.wstatus s] }

/-- Write: appends body bytes, implicitly writing status 200 first when no
status line has been written yet (as net/http does). -/
def write (w : ResponseWriter) (b : String) : ResponseWriter :=
  let w₁ := if w.wroteHeader then w
            else { w with wroteHeader := true, status := 200, sent := w.header }
  { w₁ with body := w₁.body ++ b, log := w₁.log ++ [Ev.wbody b] }

/-- Embedding of net/http's Error helper, which the error paths of JSON,
XML and HTML call: deletes Content-Length, forces a plain-text
content type and the nosniff option, writes the given status and writes
the error text followed by the newline Fprintln appends. -/
def httpError (w : ResponseWriter) (error : String) (code : Int) : ResponseWriter :=
  let w := headerDel w ContentLength
  let w := headerSet w ContentType "text/plain; charset=utf-8"
  let w := headerSet w "X-Content-Type-Options" "nosniff"
  let w := writeHeader w code
  write w (error ++ "\n")

/-- Modelled from the spec: the buffer pool comes from the external
go-helper package (not part of this repository). Per the spec it is a
plain free list: Get hands out a pooled buffer when one is available and
allocates a fresh one otherwise; Set returns a buffer to the pool.
Buffers are identified by Nat ids; next is the next fresh id. -/
structure BufferPool where
  free : List Nat
  next : Nat
deriving DecidableEq

/-- Modelled from the spec: checkout. Reuses the first pooled buffer, or
allocates a fresh id when the pool is empty. -/
def BufferPool.get (p : BufferPool) : Nat × BufferPool :=
  match p.free with
  | [] => (p.next, { free := [], next := p.next + 1 })
  | b :: bs => (b, { p with free := bs })

/-- Modelled from the spec: return a buffer to the pool. -/
def BufferPool.set (p : BufferPool) (b : Nat) : BufferPool :=
  { p with free := b :: p.free }

/-- Modelled from the spec: pool construction with an initial capacity
(the capacity only sizes the backing store, so it does not affect the
free-list semantics the claims are about). -/
def NewBufferPool (_capacity : Int) : BufferPool :=
  { free := [], next := 0 }

/-- Post-parse template AST node: literal text, the dot action (renders
the binding, escaped), or a nullary template-function call. -/
inductive Node where
  | text (s : String)
  | dot
  | call (f : String)
deriving DecidableEq

deriving instance DecidableEq for Except

/-- A template-function value as this package installs them: a constant
outcome (the default helpers), or one of the closures addYield installs,
which capture the target template name and binding. -/
inductive FuncVal where
  | constant (r : Except String String)
  | yieldOf (name binding : String)
  | currentOf (name : String)
deriving DecidableEq

/-- Escaping html/template applies to one character of a plain string
value before splicing it into HTML output. -/
def escapeHTMLChar (c : Char) : String :=
  if c = '&' then "&amp;"
  else if c = '<' then "&lt;"
  else if c = '>' then "&gt;"
  else if c = '"' then "&#34;"
  else if c.toNat = 39 then "&#39;"
  else String.singleton c

/-- Escaping html/template applies to a plain string value spliced into
HTML output; values of type template.HTML bypass it. -/
def escapeHTML (s : String) : String :=
  String.join (s.toList.map escapeHTMLChar)

/-- The compiled template set: root name, delimiters, named parsed
bodies (first match wins, so construction prepends) and the shared
function map. -/
structure Delimiter where
  Left : String
  Right : String
deriving DecidableEq

/-- Source helperFuncs: default yield fails with the fixed message,
default current returns the empty string. -/
def helperFuncs : List (String × FuncVal) :=
  [("yield", FuncVal.constant (Except.error "yield called with no layout defined")),
   ("current", FuncVal.constant (Except.ok ""))]

structure TemplateSet where
  rootName : String
  delims : Delimiter
  templates : List (String × List Node)
  funcs : List (String × FuncVal)
deriving DecidableEq

/-- Error html/template reports when ExecuteTemplate is given a name the
set does not define. -/
def undefinedTemplate (name : String) : String :=
  "html/template: \"" ++ name ++ "\" is undefined"

/-- Sequencing of template evaluation steps: an error aborts execution and
keeps the pool state reached so far; success concatenates output. -/
def bindEval (step : BufferPool × Except String String)
    (k : BufferPool → BufferPool × Except String String) :
    BufferPool × Except String String :=
  match step with
  | (pool₁, Except.error e) => (pool₁, Except.error e)
  | (pool₁, Except.ok out) =>
    match k pool₁ with
    | (pool₂, Except.error e) => (pool₂, Except.error e)
    | (pool₂, Except.ok out₂) => (pool₂, Except.ok (out ++ out₂))

/-- Evaluation of a template body over the shared set. A yield closure
replays the package's execute: it checks a buffer out of the pool (never
returning it) and runs the captured target template with the captured
binding, splicing the output in unescaped; a current closure splices the
captured name in as an ordinary (escaped) string; fuel bounds the
recursion a self-yielding template would otherwise make unbounded. -/
def evalNodes (tset : TemplateSet) (fuel : Nat) (binding : String)
    (nodes : List Node) (pool : BufferPool) : BufferPool × Except String String :=
  match fuel, nodes with
  | _, [] => (pool, Except.ok "")
  | 0, _ :: _ => (pool, Except.error "render: recursion limit")
  | Nat.succ fuel', node :: rest =>
    bindEval
      (match node with
       | Node.text s => (pool, Except.ok s)
       | Node.dot => (pool, Except.ok (escapeHTML binding))
       | Node.call f =>
         match List.lookup f tset.funcs with
         | none => (pool, Except.error ("render: function " ++ f ++ " not defined"))
         | some (FuncVal.constant (Except.error e)) => (pool, Except.error e)
         | some (FuncVal.constant (Except.ok s)) => (pool, Except.ok (escapeHTML s))
         | some (FuncVal.currentOf n) => (pool, Except.ok (escapeHTML n))
         | some (FuncVal.yieldOf n b) =>
           let gp := BufferPool.get pool
           match List.lookup n tset.templates with
           | none => (gp.2, Except.error (undefinedTemplate n))
           | some body => evalNodes tset fuel' b body gp.2)
      (fun pool₁ => evalNodes tset fuel' binding rest pool₁)

/-- ExecuteTemplate of the template engine: look the name up in the set
and evaluate its body. -/
def executeTemplate (tset : TemplateSet) (fuel : Nat) (name binding : String)
    (pool : BufferPool) : BufferPool × Except String String :=
  match List.lookup name tset.templates with
  | none => (pool, Except.error (undefinedTemplate name))
  | some body => evalNodes tset fuel binding body pool

/-- Source Options struct (second revision). Byte-slice fields hold
Strings; FuncMap holds the user-supplied template functions. -/
structure Options where
  Directory : String
  Layout : String
  Extensions : List String
  FuncMap : List (String × FuncVal)
  Delimiter : Delimiter
  Charset : String
  IndentJSON : Bool
  IndentXML : Bool
  PrefixJSON : String
  PrefixXML : String
  HTMLContentType : String
  BufferPool : Int
deriving DecidableEq

/-- Source HTMLOptions: the per-call layout override. -/
structure HTMLOptions where
  Layout : String
deriving DecidableEq

/-- Source prepareCharset: a non-empty configured charset is used as is,
otherwise the default is appended. -/
def prepareCharset (charset : String) : String :=
  if charset.length ≠ 0 then "; charset=" ++ charset
  else "; charset=" ++ defaultCharset

/-- Source prepareOptions: fill each unset field with its default. -/
def prepareOptions (options : Options) : Options :=
  let options := if options.Directory.length = 0 then
    { options with Directory := "templates" } else options
  let options := if options.Extensions.length = 0 then
    { options with Extensions := [".tmpl"] } else options
  let options := if options.HTMLContentType.length = 0 then
    { options with HTMLContentType := ContentHTML } else options
  let options := if options.BufferPool = 0 then
    { options with BufferPool := 128 } else options
  options

/-- Source getExt: empty when the path has no dot, otherwise a dot
followed by the split parts after the first rejoined with dots (that is,
everything from the first dot on). The strings.Split and strings.Join
calls are modelled on the character list so the definition computes. -/
def getExt (s : String) : String :=
  let parts := s.toList.splitOn '.'
  if parts.length = 1 then ""
  else String.mk ('.' :: List.intercalate ['.'] (parts.drop 1))

/-- filepath.ToSlash: replace the OS path separator with a slash. -/
def toSlash (sep : Char) (s : String) : String :=
  String.mk (s.toList.map fun c => if c = sep then '/' else c)

/-- The body of createTemplate's per-file walk callback: parse a file
whose extension matches a configured one into the set under its relative
path with the extension stripped and separators normalized, installing
the user FuncMap and then the helper functions (which therefore win on
the shared map, as Go's later Funcs call does); skip other files. -/
def parseStep (options : Options) (sep : Char) (t : TemplateSet)
    (pc : String × List Node) : TemplateSet :=
  let relativePath := pc.1
  let ext := getExt relativePath
  if options.Extensions.contains ext then
    let nm := relativePath.dropRight ext.length
    { t with templates := (toSlash sep nm, pc.2) :: t.templates,
             funcs := helperFuncs ++ options.FuncMap ++ t.funcs }
  else t

/-- Source createTemplate: the recursive directory walk applied to the
walk result, folding the per-file callback over the files in walk
order. -/
def createTemplate (options : Options) (sep : Char)
    (files : List (String × List Node)) : TemplateSet :=
  let init : TemplateSet :=
    { rootName := options.Directory, delims := options.Delimiter,
      templates := [], funcs := [] }
  files.foldl (parseStep options sep) init

/-- The name a matching file is parsed under: relative path, extension
stripped, separators normalized. -/
def derivedName (sep : Char) (relativePath : String) : String :=
  toSlash sep (relativePath.dropRight (getExt relativePath).length)

/-- The package-level mutable state: resolved options, compiled template
set, buffer pool. -/
structure RenderState where
  options : Options
  render : TemplateSet
  buffer : BufferPool
deriving DecidableEq

/-- Source Render: resolve options, compile the templates, build the
pool. -/
def Render (o : Options) (sep : Char) (files : List (String × List Node)) : RenderState :=
  let options := prepareOptions o
  { options := options,
    render := createTemplate options sep files,
    buffer := NewBufferPool options.BufferPool }

/-- Source execute: check a buffer out of the pool, then run the named
template of the shared set with the binding. Returns the buffer id, the
pool state after execution, and the execution outcome. -/
def execute (st : RenderState) (fuel : Nat) (name binding : String) :
    Nat × BufferPool × Except String String :=
  let gp := BufferPool.get st.buffer
  let r := executeTemplate st.render fuel name binding gp.2
  (gp.1, r.1, r.2)

/-- Source addYield: install, on the shared template set, a yield closure
that renders the captured target with the captured binding and a current
closure returning the captured name. -/
def addYield (st : RenderState) (name binding : String) : RenderState :=
  { st with render :=
      { st.render with funcs :=
          ("yield", FuncVal.yieldOf name binding) ::
          ("current", FuncVal.currentOf name) :: st.render.funcs } }

/-- Source prepareHTMLOptions: the first explicit override wins;
otherwise fall back to the configured default layout. -/
def prepareHTMLOptions (options : Options) (htmlOptions : List HTMLOptions) : HTMLOptions :=
  match htmlOptions with
  | o :: _ => o
  | [] => { Layout := options.Layout }

/-- Source HTML: resolve the layout; when one is in effect install the
yield/current closures and execute the layout instead of the target; on
execution failure respond via http.Error with status 500 (the buffer is
not returned to the pool); on success set the content type, write the
requested status, copy the buffer out and return it to the pool. -/
def HTML (st : RenderState) (w : ResponseWriter) (fuel : Nat) (status : Int)
    (name : String) (binding : String) (htmlOptions : List HTMLOptions) :
    ResponseWriter × RenderState :=
  let option := prepareHTMLOptions st.options htmlOptions
  let st₁ := if option.Layout.length > 0 then addYield st name binding else st
  let name₁ := if option.Layout.length > 0 then option.Layout else name
  let er := execute st₁ fuel name₁ binding
  let st₂ := { st₁ with buffer := er.2.1 }
  match er.2.2 with
  | Except.error e => (httpError w e 500, st₂)
  | Except.ok out =>
    let w := headerSet w ContentType
      (st₂.options.HTMLContentType ++ prepareCharset st₂.options.Charset)
    let w := writeHeader w status
    let w := write w out
    (w, { st₂ with buffer := BufferPool.set st₂.buffer er.1 })

/-- A value to be marshalled, represented by its two serializer outcomes:
compact is Marshal, indented is MarshalIndent with a two-space indent. -/
structure Marshalled where
  compact : Except String String
  indented : Except String String
deriving DecidableEq

/-- Source JSON: marshal (indented when configured); on failure respond
via http.Error with status 500; on success set the JSON content type with
the resolved charset, write the status, then the configured prefix bytes
when non-empty, then the payload. -/
def JSON (options : Options) (w : ResponseWriter) (status : Int) (v : Marshalled) :
    ResponseWriter :=
  let result := if options.IndentJSON then v.indented else v.compact
  match result with
  | Except.error e => httpError w e 500
  | Except.ok r =>
    let w := headerSet w ContentType (ContentJSON ++ prepareCharset options.Charset)
    let w := writeHeader w status
    let w := if options.PrefixJSON.length > 0 then write w options.PrefixJSON else w
    write w r

/-- Source XML: same contract as JSON with the XML content type, indent
flag and prefix bytes. -/
def XML (options : Options) (w : ResponseWriter) (status : Int) (v : Marshalled) :
    ResponseWriter :=
  let result := if options.IndentXML then v.indented else v.compact
  match result with
  | Except.error e => httpError w e 500
  | Except.ok r =>
    let w := headerSet w ContentType (ContentXML ++ prepareCharset options.Charset)
    let w := writeHeader w status
    let w := if options.PrefixXML.length > 0 then write w options.PrefixXML else w
    write w r

/-- Source Data: default the content type to octet-stream only when the
caller has not set one, then write the status and the bytes verbatim. -/
def Data (w : ResponseWriter) (status : Int) (v : String) : ResponseWriter :=
  let w := if headerGet w ContentType = "" then headerSet w ContentType ContentBinary else w
  let w := writeHeader w status
  write w v

/-- Source Text: default the content type to text/plain with the resolved
charset only when the caller has not set one, then write the status and
the string verbatim. -/
def Text (options : Options) (w : ResponseWriter) (status : Int) (v : String) :
    ResponseWriter :=
  let w := if headerGet w ContentType = "" then
    headerSet w ContentType (ContentText ++ prepareCharset options.Charset) else w
  let w := writeHeader w status
  write w v

/-- Embedding of net/http's Redirect: sets the Location header and writes
the redirect status (the request argument and the HTML body net/http adds
for GET requests are elided). -/
def httpRedirect (w : ResponseWriter) (location : String) (code : Int) : ResponseWriter :=
  writeHeader (headerSet w "Location" location) code

/-- Source Redirect (package-level, second revision): status 0 means no
explicit code and defaults to 302 Found. -/
def Redirect (w : ResponseWriter) (status : Int) (location : String) : ResponseWriter :=
  let code : Int := if status ≠ 0 then status else 302
  httpRedirect w location code

/-- Source Redirect method of the first revision's renderer: the code is
302 Found unless exactly one status argument is supplied. -/
def rendererRedirect (w : ResponseWriter) (location : String) (status : List Int) :
    ResponseWriter :=
  let code : Int := match status with | [s] => s | _ => 302
  httpRedirect w location code

/-- An Options value with every field unset, as a Go zero value. -/
def emptyOptions : Options :=
  { Directory := "", Layout := "", Extensions := [], FuncMap := [],
    Delimiter := { Left := "", Right := "" }, Charset := "",
    IndentJSON := false, IndentXML := false, PrefixJSON := "", PrefixXML := "",
    HTMLContentType := "", BufferPool := 0 }

/-- A fresh response writer: nothing set, nothing written. -/
def freshW : ResponseWriter :=
  { header := [], wroteHeader := false, status := 0, sent := [], body := "", log := [] }

/-- A small compiled template set: a layout that brackets a yield and a
current call, and a target page rendering the binding. -/
def tsetW : TemplateSet :=
  { rootName := "templates", delims := { Left := "", Right := "" },
    templates :=
      [("layout", [Node.text "A", Node.call "yield", Node.text "B", Node.call "current"]),
       ("index", [Node.text "X", Node.dot])],
    funcs := helperFuncs }

/-- Render state whose configured default layout is the layout template. -/
def stW : RenderState :=
  { options := { emptyOptions with Layout := "layout" },
    render := tsetW,
    buffer := { free := [], next := 0 } }

/-- Render state with an empty template set and one pooled buffer, for
exercising the execution-failure path. -/
def stMissing : RenderState :=
  { options := emptyOptions,
    render := { rootName := "", delims := { Left := "", Right := "" },
                templates := [], funcs := helperFuncs },
    buffer := { free := [5], next := 6 } }

/-! Helper lemmas shared by the claim theorems. -/

/-- Finding a key right after it was appended past entries it was erased
from. -/
theorem find_filter_append (t : List (String × String)) (k v : String) :
    List.find? (fun p => p.1 == k) ((t.filter fun p => p.1 != k) ++ [(k, v)]) =
      some (k, v) := by
  induction t with
  | nil => simp [List.find?]
  | cons p t ih =>
    by_cases hp : p.1 = k
    · simp [List.filter_cons, hp, ih]
    · simp [List.filter_cons, hp, List.find?, ih]

/-- Setting a header makes it the value Get returns. -/
theorem setPairs_find (h : List (String × String)) (k v : String) :
    List.find? (fun p => p.1 == k) (setPairs h k v) = some (k, v) := by
  simp [setPairs, find_filter_append]

/-- Get after Set. -/
theorem headerGet_headerSet (w : ResponseWriter) (k v : String) :
    headerGet (headerSet w k v) k = v := by
  simp [headerGet, headerSet, setPairs_find]

/-- The charset suffix is the configured charset, defaulting to UTF-8. -/
theorem prepareCharset_eq (cs : String) :
    prepareCharset cs = "; charset=" ++ (if cs.length = 0 then "UTF-8" else cs) := by
  by_cases h : cs.length = 0 <;> simp [prepareCharset, h, defaultCharset]

/-- Full description of http.Error on a fresh response writer. -/
theorem httpError_fresh (e : String) (code : Int) :
    httpError freshW e code =
      { header := [(ContentType, "text/plain; charset=utf-8"),
                   ("X-Content-Type-Options", "nosniff")],
        wroteHeader := true, status := code,
        sent := [(ContentType, "text/plain; charset=utf-8"),
                 ("X-Content-Type-Options", "nosniff")],
        body := e ++ "\n",
        log := [Ev.hdel ContentLength,
                Ev.hset ContentType "text/plain; charset=utf-8",
                Ev.hset "X-Content-Type-Options" "nosniff",
                Ev.wstatus code, Ev.wbody (e ++ "\n")] } := rfl

/-! Claim theorems. -/

/-- C9: configuration resolution is total and fills exactly the unset
fields with their defaults — empty directory becomes "templates", an
empty extension list becomes [".tmpl"], an empty HTML content type
becomes "text/html", a zero buffer-pool capacity becomes the default size
128 — leaving every set field (and every other field) unchanged. -/
theorem prepareOptions_defaults (o : Options) :
    prepareOptions o =
      { o with
        Directory := if o.Directory.length = 0 then "templates" else o.Directory,
        Extensions := if o.Extensions.length = 0 then [".tmpl"] else o.Extensions,
        HTMLContentType :=
          if o.HTMLContentType.length = 0 then "text/html" else o.HTMLContentType,
        BufferPool := if o.BufferPool = 0 then 128 else o.BufferPool } := by
  obtain ⟨d, l, ex, fm, de, cs, ij, ix, pj, px, hc, bp⟩ := o
  simp only [prepareOptions]
  split_ifs <;> simp_all [ContentHTML]

/-- C5: Redirect with status 0 (the no-explicit-status sentinel of the
package-level signature) issues exactly a 302 Found redirect to the given
location, and a non-zero caller-supplied status is honored exactly; the
first revision's variadic Redirect method behaves the same with an empty
status list defaulting to 302 and a singleton honored exactly. -/
theorem redirect_contract (w : ResponseWriter) (location : String)
    (hw : w.wroteHeader = false) :
    ((Redirect w 0 location).status = 302 ∧
     headerGet (Redirect w 0 location) "Location" = location ∧
     (∀ s : Int, s ≠ 0 → (Redirect w s location).status = s ∧
        headerGet (Redirect w s location) "Location" = location)) ∧
    ((rendererRedirect w location []).status = 302 ∧
     headerGet (rendererRedirect w location []) "Location" = location ∧
     (∀ s : Int, (rendererRedirect w location [s]).status = s ∧
        headerGet (rendererRedirect w location [s]) "Location" = location)) := by
  refine ⟨⟨?_, ?_, fun s hs => ⟨?_, ?_⟩⟩, ⟨?_, ?_, fun s => ⟨?_, ?_⟩⟩⟩ <;>
    simp [Redirect, rendererRedirect, httpRedirect, writeHeader, headerSet,
          headerGet, setPairs_find, hw, *]

/-- C5 witness: concrete redirects on a fresh writer. -/
theorem redirect_contract_witness :
    freshW.wroteHeader = false ∧
    (Redirect freshW 0 "/login").status = 302 ∧
    (Redirect freshW 307 "/login").status = 307 := by
  refine ⟨rfl, ?_, ?_⟩
  · exact (redirect_contract freshW "/login" rfl).1.1
  · exact ((redirect_contract freshW "/login" rfl).1.2.2 307 (by decide)).1

/-- C7: Text and Data leave a caller-set Content-Type untouched; with no
Content-Type set, Text installs text/plain with the resolved charset
(defaulting to UTF-8) and Data installs application/octet-stream; both
write the requested status and the payload verbatim (both are total
functions, so neither has a failure path). -/
theorem text_data_contract (options : Options) (w : ResponseWriter)
    (status : Int) (v : String) (hw : w.wroteHeader = false) :
    ((headerGet w ContentType ≠ "" → (Data w status v).header = w.header) ∧
     (headerGet w ContentType = "" →
        headerGet (Data w status v) ContentType = "application/octet-stream") ∧
     (Data w status v).status = status ∧
     (Data w status v).body = w.body ++ v) ∧
    ((headerGet w ContentType ≠ "" → (Text options w status v).header = w.header) ∧
     (headerGet w ContentType = "" →
        headerGet (Text options w status v) ContentType =
          ContentText ++ prepareCharset options.Charset) ∧
     (Text options w status v).status = status ∧
     (Text options w status v).body = w.body ++ v) ∧
    prepareCharset options.Charset =
      "; charset=" ++ (if options.Charset.length = 0 then "UTF-8" else options.Charset) := by
  refine ⟨⟨?_, ?_, ?_, ?_⟩, ⟨?_, ?_, ?_, ?_⟩, prepareCharset_eq options.Charset⟩
  · intro hne
    simp only [Data, if_neg hne]
    simp [writeHeader, write, hw]
  · intro hct
    simp only [Data, hct]
    simp [writeHeader, write, headerSet, hw, ContentBinary, headerGet, setPairs_find]
  · by_cases hct : headerGet w ContentType = "" <;>
      simp [Data, hct, writeHeader, write, headerSet, hw]
  · by_cases hct : headerGet w ContentType = "" <;>
      simp [Data, hct, writeHeader, write, headerSet, hw]
  · intro hne
    simp only [Text, if_neg hne]
    simp [writeHeader, write, hw]
  · intro hct
    simp only [Text, hct]
    simp [writeHeader, write, headerSet, hw, headerGet, setPairs_find]
  · by_cases hct : headerGet w ContentType = "" <;>
      simp [Text, hct, writeHeader, write, headerSet, hw]
  · by_cases hct : headerGet w ContentType = "" <;>
      simp [Text, hct, writeHeader, write, headerSet, hw]

/-- C7 witness: a writer with a caller-set content type keeps it; a fresh
writer gets the defaults. -/
theorem text_data_contract_witness :
    (let wpre : ResponseWriter :=
      { header := [(ContentType, "application/wasm")], wroteHeader := false,
        status := 0, sent := [], body := "", log := [] }
     wpre.wroteHeader = false ∧
     headerGet wpre ContentType ≠ "" ∧
     (Data wpre 200 "bits").header = wpre.header) ∧
    freshW.wroteHeader = false ∧
    headerGet freshW ContentType = "" ∧
    headerGet (Data freshW 200 "bits") ContentType = "application/octet-stream" := by
  refine ⟨⟨rfl, by decide, ?_⟩, rfl, by decide, ?_⟩
  · exact (text_data_contract emptyOptions _ 200 "bits" rfl).1.1 (by decide)
  · exact (text_data_contract emptyOptions freshW 200 "bits" rfl).1.2.1 (by decide)

/-- A string of length zero is the empty string. -/
theorem string_length_zero (s : String) (h : s.length = 0) : s = "" := by
  cases s with
  | mk l =>
    cases l with
    | nil => rfl
    | cons a t => simp [String.length] at h

/-- C4: for every value that marshals successfully, JSON writes the
application/json content type with the resolved charset (UTF-8 when
unset), then the requested status, then — when non-empty — the configured
prefix bytes immediately followed by the payload, the payload being the
two-space-indented serializer form exactly when IndentJSON is set and the
compact form otherwise; XML behaves identically with text/xml and its own
indent flag and prefix bytes. -/
theorem json_xml_success (options : Options) (w : ResponseWriter) (status : Int)
    (vj vx : Marshalled) (rj rx : String)
    (hw : w.wroteHeader = false)
    (hj : (if options.IndentJSON then vj.indented else vj.compact) = Except.ok rj)
    (hx : (if options.IndentXML then vx.indented else vx.compact) = Except.ok rx) :
    ((JSON options w status vj).log =
        w.log ++ [Ev.hset ContentType (ContentJSON ++ prepareCharset options.Charset),
                  Ev.wstatus status] ++
          (if options.PrefixJSON.length > 0 then [Ev.wbody options.PrefixJSON] else []) ++
          [Ev.wbody rj] ∧
     (JSON options w status vj).body = w.body ++ (options.PrefixJSON ++ rj) ∧
     (JSON options w status vj).status = status ∧
     headerGet (JSON options w status vj) ContentType =
       ContentJSON ++ prepareCharset options.Charset) ∧
    ((XML options w status vx).log =
        w.log ++ [Ev.hset ContentType (ContentXML ++ prepareCharset options.Charset),
                  Ev.wstatus status] ++
          (if options.PrefixXML.length > 0 then [Ev.wbody options.PrefixXML] else []) ++
          [Ev.wbody rx] ∧
     (XML options w status vx).body = w.body ++ (options.PrefixXML ++ rx) ∧
     (XML options w status vx).status = status ∧
     headerGet (XML options w status vx) ContentType =
       ContentXML ++ prepareCharset options.Charset) ∧
    prepareCharset options.Charset =
      "; charset=" ++ (if options.Charset.length = 0 then "UTF-8" else options.Charset) := by
  refine ⟨⟨?_, ?_, ?_, ?_⟩, ⟨?_, ?_, ?_, ?_⟩, prepareCharset_eq options.Charset⟩ <;>
    simp only [JSON, XML, hj, hx] <;>
      first
      | (by_cases hp : options.PrefixJSON.length > 0
         · simp [hp, headerSet, writeHeader, write, hw, headerGet, setPairs_find,
                 String.append_assoc]
         · have hemp : options.PrefixJSON = "" :=
             string_length_zero _ (by omega)
           simp [hp, hemp, headerSet, writeHeader, write, hw, headerGet, setPairs_find])
      | (by_cases hp : options.PrefixXML.length > 0
         · simp [hp, headerSet, writeHeader, write, hw, headerGet, setPairs_find,
                 String.append_assoc]
         · have hemp : options.PrefixXML = "" :=
             string_length_zero _ (by omega)
           simp [hp, hemp, headerSet, writeHeader, write, hw, headerGet, setPairs_find])

/-- C4 witness: a concrete successful render with a prefix configured and
indentation off. -/
theorem json_xml_success_witness :
    freshW.wroteHeader = false ∧
    (JSON { emptyOptions with PrefixJSON := "PRE" } freshW 200
        { compact := Except.ok "[1,2]", indented := Except.ok "IND" }).body =
      "" ++ ("PRE" ++ "[1,2]") := by
  refine ⟨rfl, ?_⟩
  exact (json_xml_success { emptyOptions with PrefixJSON := "PRE" } freshW 200
    { compact := Except.ok "[1,2]", indented := Except.ok "IND" }
    { compact := Except.ok "", indented := Except.ok "" } "[1,2]" ""
    rfl rfl rfl).1.2.1

/-- The event log http.Error leaves on a fresh writer. -/
def errorLog (e : String) : List Ev :=
  [Ev.hdel ContentLength,
   Ev.hset ContentType "text/plain; charset=utf-8",
   Ev.hset "X-Content-Type-Options" "nosniff",
   Ev.wstatus 500, Ev.wbody (e ++ "\n")]

/-- C1: every per-request failure — JSON or XML marshal failure, or HTML
template execution failure, an undefined template name included — makes
the operation respond through http.Error with status 500 and the error
message (plus the newline Fprintln adds) as the body; the event log shows
that the only content type ever set on that path is http.Error's
text/plain and the only status ever written is 500, so the intended
content type and the caller-requested status are never written; all the
operations are total Lean functions, the embedding of code that never
crashes the process. -/
theorem error_paths_500 :
    (∀ (options : Options) (status : Int) (v : Marshalled) (e : String),
       (if options.IndentJSON then v.indented else v.compact) = Except.error e →
       JSON options freshW status v = httpError freshW e 500 ∧
       (JSON options freshW status v).status = 500 ∧
       (JSON options freshW status v).body = e ++ "\n" ∧
       (JSON options freshW status v).log = errorLog e ∧
       headerGet (JSON options freshW status v) ContentType =
         "text/plain; charset=utf-8") ∧
    (∀ (options : Options) (status : Int) (v : Marshalled) (e : String),
       (if options.IndentXML then v.indented else v.compact) = Except.error e →
       XML options freshW status v = httpError freshW e 500 ∧
       (XML options freshW status v).status = 500 ∧
       (XML options freshW status v).body = e ++ "\n" ∧
       (XML options freshW status v).log = errorLog e ∧
       headerGet (XML options freshW status v) ContentType =
         "text/plain; charset=utf-8") ∧
    (∀ (st : RenderState) (fuel : Nat) (status : Int) (name binding : String)
       (hopts : List HTMLOptions) (e : String),
       (execute
          (if (prepareHTMLOptions st.options hopts).Layout.length > 0 then
            addYield st name binding else st)
          fuel
          (if (prepareHTMLOptions st.options hopts).Layout.length > 0 then
            (prepareHTMLOptions st.options hopts).Layout else name)
          binding).2.2 = Except.error e →
       (HTML st freshW fuel status name binding hopts).1 = httpError freshW e 500 ∧
       (HTML st freshW fuel status name binding hopts).1.status = 500 ∧
       (HTML st freshW fuel status name binding hopts).1.body = e ++ "\n" ∧
       (HTML st freshW fuel status name binding hopts).1.log = errorLog e) ∧
    (∀ (tset : TemplateSet) (fuel : Nat) (name binding : String) (pool : BufferPool),
       List.lookup name tset.templates = none →
       (executeTemplate tset fuel name binding pool).2 =
         Except.error (undefinedTemplate name)) := by
  refine ⟨?_, ?_, ?_, ?_⟩
  · intro options status v e hj
    simp only [JSON, hj]
    simp [httpError_fresh, errorLog, headerGet, ContentType, List.find?]
  · intro options status v e hx
    simp only [XML, hx]
    simp [httpError_fresh, errorLog, headerGet, ContentType, List.find?]
  · intro st fuel status name binding hopts e hex
    simp only [HTML, hex]
    simp [httpError_fresh, errorLog]
  · intro tset fuel name binding pool hmiss
    simp [executeTemplate, hmiss]

/-- C1 witness: a marshal failure and an undefined template on concrete
inputs. -/
theorem error_paths_500_witness :
    ((if emptyOptions.IndentJSON then
        (Marshalled.mk (Except.error "boom") (Except.ok "")).indented
      else (Marshalled.mk (Except.error "boom") (Except.ok "")).compact) =
        Except.error "boom") ∧
    (JSON emptyOptions freshW 200
      (Marshalled.mk (Except.error "boom") (Except.ok ""))).status = 500 ∧
    List.lookup "missing" stMissing.render.templates = none ∧
    (executeTemplate stMissing.render 10 "missing" "" stMissing.buffer).2 =
      Except.error (undefinedTemplate "missing") := by
  refine ⟨rfl, ?_, rfl, ?_⟩
  · exact (error_paths_500.1 emptyOptions 200
      (Marshalled.mk (Except.error "boom") (Except.ok "")) "boom" rfl).2.1
  · exact error_paths_500.2.2.2 stMissing.render 10 "missing" "" stMissing.buffer rfl

/-- C3: with no layout in effect for the call, HTML behaves as a direct
execution of the named template of the compiled set with the given
binding: on success the response body is exactly that execution's output
(with the requested status, and the shared template set untouched), and
on failure the response is http.Error's 500. -/
theorem html_no_layout_direct (st : RenderState) (w : ResponseWriter) (fuel : Nat)
    (status : Int) (name binding : String) (hopts : List HTMLOptions)
    (hw : w.wroteHeader = false)
    (hL : (prepareHTMLOptions st.options hopts).Layout = "") :
    (∀ pool₂ out,
       executeTemplate st.render fuel name binding (BufferPool.get st.buffer).2 =
         (pool₂, Except.ok out) →
       (HTML st w fuel status name binding hopts).1.body = w.body ++ out ∧
       (HTML st w fuel status name binding hopts).1.status = status ∧
       (HTML st w fuel status name binding hopts).2.render = st.render) ∧
    (∀ pool₂ e,
       executeTemplate st.render fuel name binding (BufferPool.get st.buffer).2 =
         (pool₂, Except.error e) →
       (HTML st w fuel status name binding hopts).1 = httpError w e 500) := by
  constructor
  · intro pool₂ out hex
    simp [HTML, execute, hL, hex, headerSet, writeHeader, write, hw]
  · intro pool₂ e hex
    simp [HTML, execute, hL, hex]

/-- C3 witness: rendering the page template with an explicit empty layout
override on a concrete state. -/
theorem html_no_layout_direct_witness :
    freshW.wroteHeader = false ∧
    (prepareHTMLOptions stW.options [HTMLOptions.mk ""]).Layout = "" ∧
    (HTML stW freshW 10 200 "index" "D" [HTMLOptions.mk ""]).1.body = "" ++ "XD" := by
  refine ⟨rfl, rfl, ?_⟩
  exact ((html_no_layout_direct stW freshW 10 200 "index" "D" [HTMLOptions.mk ""]
    rfl rfl).1 { free := [], next := 1 } "XD" (by decide)).1

/-- C10: only the first explicit HTMLOptions value is consulted and it
fully replaces the configured default layout: an explicit empty Layout
renders with no layout even when a default layout is configured (the call
behaves exactly like a call on a configuration whose default layout is
empty), while omitting HTMLOptions falls back to the configured default. -/
theorem prepareHTMLOptions_first_wins (opts : Options) :
    (∀ (o : HTMLOptions) (rest : List HTMLOptions),
        prepareHTMLOptions opts (o :: rest) = o) ∧
    prepareHTMLOptions opts [] = { Layout := opts.Layout } ∧
    (∀ (st : RenderState) (w : ResponseWriter) (fuel : Nat) (status : Int)
        (name binding : String),
        (HTML st w fuel status name binding [HTMLOptions.mk ""]).1 =
          (HTML { st with options := { st.options with Layout := "" } }
             w fuel status name binding []).1 ∧
        (HTML st w fuel status name binding [HTMLOptions.mk ""]).2.render =
          (HTML { st with options := { st.options with Layout := "" } }
             w fuel status name binding []).2.render ∧
        (HTML st w fuel status name binding [HTMLOptions.mk ""]).2.buffer =
          (HTML { st with options := { st.options with Layout := "" } }
             w fuel status name binding []).2.buffer) := by
  refine ⟨fun o rest => rfl, rfl, fun st w fuel status name binding => ?_⟩
  rcases hex : executeTemplate st.render fuel name binding (BufferPool.get st.buffer).2
    with ⟨pool₂, r⟩
  cases r <;>
    simp [HTML, execute, prepareHTMLOptions, hex]

/-- A non-empty string has positive length. -/
theorem length_pos_of_ne_empty (s : String) (h : s ≠ "") : s.length > 0 := by
  by_cases h0 : s.length = 0
  · exact absurd (string_length_zero s h0) h
  · omega

/-- addYield only touches the shared function map, not the pool. -/
theorem addYield_buffer (st : RenderState) (n b : String) :
    (addYield st n b).buffer = st.buffer := rfl

/-- addYield leaves the parsed templates untouched. -/
theorem addYield_templates (st : RenderState) (n b : String) :
    (addYield st n b).render.templates = st.render.templates := rfl

/-- addYield leaves the resolved options untouched. -/
theorem addYield_options (st : RenderState) (n b : String) :
    (addYield st n b).options = st.options := rfl

/-- After addYield the shared set resolves yield to the closure capturing
the target name and binding. -/
theorem addYield_lookup_yield (st : RenderState) (n b : String) :
    List.lookup "yield" (addYield st n b).render.funcs =
      some (FuncVal.yieldOf n b) := rfl

/-- After addYield the shared set resolves current to the closure
capturing the target name. -/
theorem addYield_lookup_current (st : RenderState) (n b : String) :
    List.lookup "current" (addYield st n b).render.funcs =
      some (FuncVal.currentOf n) := rfl

/-- C2: with a non-empty layout in effect, HTML executes the layout
template as the top-level render over the set extended by addYield; on
that set, yield resolves to the closure capturing the original target and
binding — so each yield invocation splices in, unescaped, exactly the
output of executing the original target template with the same binding —
and current resolves to the closure returning the original target's name,
each current invocation splicing that name in. -/
theorem html_layout_yield (st : RenderState) (w : ResponseWriter) (fuel : Nat)
    (status : Int) (name binding : String) (hopts : List HTMLOptions) (L : String)
    (hw : w.wroteHeader = false)
    (hL : (prepareHTMLOptions st.options hopts).Layout = L)
    (hne : L ≠ "") :
    (∀ pool₂ out,
       executeTemplate (addYield st name binding).render fuel L binding
         (BufferPool.get st.buffer).2 = (pool₂, Except.ok out) →
       (HTML st w fuel status name binding hopts).1.body = w.body ++ out ∧
       (HTML st w fuel status name binding hopts).1.status = status) ∧
    (∀ pool₂ e,
       executeTemplate (addYield st name binding).render fuel L binding
         (BufferPool.get st.buffer).2 = (pool₂, Except.error e) →
       (HTML st w fuel status name binding hopts).1 = httpError w e 500) ∧
    List.lookup "yield" (addYield st name binding).render.funcs =
      some (FuncVal.yieldOf name binding) ∧
    List.lookup "current" (addYield st name binding).render.funcs =
      some (FuncVal.currentOf name) ∧
    (∀ (f : Nat) (b₂ : String) (rest : List Node) (pool pool₂ pool₃ : BufferPool)
        (out out₂ : String),
       executeTemplate (addYield st name binding).render f name binding
         (BufferPool.get pool).2 = (pool₂, Except.ok out) →
       evalNodes (addYield st name binding).render f b₂ rest pool₂ =
         (pool₃, Except.ok out₂) →
       evalNodes (addYield st name binding).render (f + 1) b₂
         (Node.call "yield" :: rest) pool = (pool₃, Except.ok (out ++ out₂))) ∧
    (∀ (f : Nat) (b₂ : String) (rest : List Node) (pool pool₂ : BufferPool)
        (out₂ : String),
       evalNodes (addYield st name binding).render f b₂ rest pool =
         (pool₂, Except.ok out₂) →
       evalNodes (addYield st name binding).render (f + 1) b₂
         (Node.call "current" :: rest) pool =
         (pool₂, Except.ok (escapeHTML name ++ out₂))) := by
  have hpos : L.length > 0 := length_pos_of_ne_empty L hne
  refine ⟨?_, ?_, addYield_lookup_yield st name binding,
    addYield_lookup_current st name binding, ?_, ?_⟩
  · intro pool₂ out hex
    simp [HTML, execute, hL, hpos, hex, addYield_buffer,
          headerSet, writeHeader, write, hw]
  · intro pool₂ e hex
    simp [HTML, execute, hL, hpos, hex, addYield_buffer]
  · intro f b₂ rest pool pool₂ pool₃ out out₂ hex hrest
    rcases hlook : List.lookup name (addYield st name binding).render.templates
      with _ | body
    · simp [executeTemplate, hlook] at hex
    · simp only [executeTemplate, hlook] at hex
      simp only [evalNodes]
      simp [addYield_lookup_yield, bindEval, hlook, hex, hrest]
  · intro f b₂ rest pool pool₂ out₂ hrest
    simp only [evalNodes]
    simp [addYield_lookup_current, bindEval, hrest]

/-- C2 witness: a concrete layout render on the sample set, where the
layout wraps the page output and the page name. -/
theorem html_layout_yield_witness :
    freshW.wroteHeader = false ∧
    (prepareHTMLOptions stW.options []).Layout = "layout" ∧
    ("layout" : String) ≠ "" ∧
    (HTML stW freshW 10 200 "index" "D" []).1.body = "" ++ "AXDBindex" := by
  refine ⟨rfl, rfl, by decide, ?_⟩
  exact ((html_layout_yield stW freshW 10 200 "index" "D" [] "layout" rfl rfl
    (by decide)).1 { free := [], next := 2 } "AXDBindex" (by decide)).1

/-- Checkout never enlarges the free list. -/
theorem get_free_subset (p : BufferPool) : (BufferPool.get p).2.free ⊆ p.free := by
  cases p with
  | mk free next => cases free <;> simp [BufferPool.get]

/-- On a duplicate-free pool the checked-out buffer is no longer owned by
the pool. -/
theorem get_not_mem (p : BufferPool) (hnd : p.free.Nodup) :
    (BufferPool.get p).1 ∉ (BufferPool.get p).2.free := by
  cases p with
  | mk free next =>
    cases free with
    | nil => simp [BufferPool.get]
    | cons b bs =>
      simp only [BufferPool.get]
      exact (List.nodup_cons.mp hnd).1

/-- Sequencing evaluation steps never enlarges the free list beyond the
first step's pool. -/
theorem bindEval_free_subset (s : BufferPool × Except String String)
    (k : BufferPool → BufferPool × Except String String)
    (hk : ∀ p, (k p).1.free ⊆ p.free) :
    (bindEval s k).1.free ⊆ s.1.free := by
  rcases s with ⟨p, r⟩
  cases r with
  | error e => simp [bindEval]
  | ok out =>
    rcases hkp : k p with ⟨p₂, r₂⟩
    have h := hk p
    rw [hkp] at h
    cases r₂ <;> simp [bindEval, hkp] <;> exact h

/-- Template evaluation only ever removes buffers from the pool: there is
no return call anywhere in it. -/
theorem evalNodes_free_subset (tset : TemplateSet) :
    ∀ (fuel : Nat) (binding : String) (nodes : List Node) (pool : BufferPool),
      ((evalNodes tset fuel binding nodes pool).1).free ⊆ pool.free := by
  intro fuel
  induction fuel with
  | zero =>
    intro binding nodes pool
    cases nodes <;> simp [evalNodes]
  | succ f ih =>
    intro binding nodes pool
    cases nodes with
    | nil => simp [evalNodes]
    | cons node rest =>
      have hk : ∀ p, ((evalNodes tset f binding rest p).1).free ⊆ p.free :=
        fun p => ih binding rest p
      cases node with
      | text s =>
        simp only [evalNodes]
        exact List.Subset.trans (bindEval_free_subset _ _ hk) (fun _ h => h)
      | dot =>
        simp only [evalNodes]
        exact List.Subset.trans (bindEval_free_subset _ _ hk) (fun _ h => h)
      | call fn =>
        simp only [evalNodes]
        cases hlf : List.lookup fn tset.funcs with
        | none => exact List.Subset.trans (bindEval_free_subset _ _ hk) (fun _ h => h)
        | some fv =>
          cases fv with
          | constant r =>
            cases r with
            | error e =>
              exact List.Subset.trans (bindEval_free_subset _ _ hk) (fun _ h => h)
            | ok s =>
              exact List.Subset.trans (bindEval_free_subset _ _ hk) (fun _ h => h)
          | currentOf n =>
            exact List.Subset.trans (bindEval_free_subset _ _ hk) (fun _ h => h)
          | yieldOf n b =>
            show ((bindEval
                (match List.lookup n tset.templates with
                 | none => ((BufferPool.get pool).2, Except.error (undefinedTemplate n))
                 | some body => evalNodes tset f b body (BufferPool.get pool).2)
                (fun pool₁ => evalNodes tset f binding rest pool₁)).1).free ⊆ pool.free
            refine List.Subset.trans (bindEval_free_subset _ _ hk) ?_
            cases hlt : List.lookup n tset.templates with
            | none => exact get_free_subset pool
            | some body =>
              exact List.Subset.trans (ih b body (BufferPool.get pool).2)
                (get_free_subset pool)

/-- Engine-level execution only ever removes buffers from the pool. -/
theorem executeTemplate_free_subset (tset : TemplateSet) (fuel : Nat)
    (name binding : String) (pool : BufferPool) :
    ((executeTemplate tset fuel name binding pool).1).free ⊆ pool.free := by
  unfold executeTemplate
  cases List.lookup name tset.templates with
  | none => exact fun _ h => h
  | some body => exact evalNodes_free_subset tset fuel binding body pool

/-- C6 counterexample: on the error path the checked-out buffer is never
returned to the pool. The concrete state has exactly one pooled buffer
(id 5); the call requests an undefined template, so the 500 error body is
flushed, yet the final pool no longer owns buffer 5 — contradicting the
claim that the buffer is returned after the response body has been
flushed including on the error path. -/
theorem html_buffer_error_not_returned :
    stMissing.buffer.free = [5] ∧
    (HTML stMissing freshW 10 200 "missing" "" []).1.wroteHeader = true ∧
    (HTML stMissing freshW 10 200 "missing" "" []).1.status = 500 ∧
    ¬ (5 ∈ (HTML stMissing freshW 10 200 "missing" "" []).2.buffer.free) := by
  decide

/-- C6 (amended): on every HTML call a buffer is checked out before
template execution and the pool retains no ownership of it while it is
checked out (no step of execution ever puts it back); on the success path
it is returned to the pool after the response body has been flushed; on
the error path it is not returned (per the counterexample). -/
theorem html_buffer_pool_success (st : RenderState) (w : ResponseWriter)
    (fuel : Nat) (status : Int) (name binding : String) (hopts : List HTMLOptions)
    (pool₂ : BufferPool) (out : String)
    (hw : w.wroteHeader = false)
    (hnd : st.buffer.free.Nodup)
    (hex : executeTemplate
        (if (prepareHTMLOptions st.options hopts).Layout.length > 0 then
          addYield st name binding else st).render
        fuel
        (if (prepareHTMLOptions st.options hopts).Layout.length > 0 then
          (prepareHTMLOptions st.options hopts).Layout else name)
        binding (BufferPool.get st.buffer).2 = (pool₂, Except.ok out)) :
    ((BufferPool.get st.buffer).1 ∉ (BufferPool.get st.buffer).2.free) ∧
    ((BufferPool.get st.buffer).1 ∉ pool₂.free) ∧
    (HTML st w fuel status name binding hopts).2.buffer.free =
      (BufferPool.get st.buffer).1 :: pool₂.free ∧
    (HTML st w fuel status name binding hopts).1.log =
      w.log ++ [Ev.hset ContentType
                  (st.options.HTMLContentType ++ prepareCharset st.options.Charset),
                Ev.wstatus status, Ev.wbody out] := by
  have hout : (BufferPool.get st.buffer).1 ∉ (BufferPool.get st.buffer).2.free :=
    get_not_mem st.buffer hnd
  have hsub : pool₂.free ⊆ (BufferPool.get st.buffer).2.free := by
    have h := executeTemplate_free_subset
      (if (prepareHTMLOptions st.options hopts).Layout.length > 0 then
        addYield st name binding else st).render
      fuel
      (if (prepareHTMLOptions st.options hopts).Layout.length > 0 then
        (prepareHTMLOptions st.options hopts).Layout else name)
      binding (BufferPool.get st.buffer).2
    rw [hex] at h
    exact h
  refine ⟨hout, fun hmem => hout (hsub hmem), ?_, ?_⟩ <;>
    by_cases hc : (prepareHTMLOptions st.options hopts).Layout.length > 0
  · simp only [if_pos hc] at hex
    simp [HTML, execute, hc, hex, addYield_buffer, addYield_options, BufferPool.set,
          headerSet, writeHeader, write]
  · simp only [if_neg hc] at hex
    simp [HTML, execute, hc, hex, BufferPool.set,
          headerSet, writeHeader, write]
  · simp only [if_pos hc] at hex
    simp [HTML, execute, hc, hex, addYield_buffer, addYield_options,
          headerSet, writeHeader, write, hw]
  · simp only [if_neg hc] at hex
    simp [HTML, execute, hc, hex,
          headerSet, writeHeader, write, hw]

/-- C6 witness: a successful no-layout render on the sample state checks
buffer 0 out of an empty pool and has returned it once the body is
flushed. -/
theorem html_buffer_pool_success_witness :
    freshW.wroteHeader = false ∧
    stW.buffer.free.Nodup ∧
    ((BufferPool.get stW.buffer).1 ∉ (BufferPool.get stW.buffer).2.free) ∧
    (HTML stW freshW 10 200 "index" "D" [HTMLOptions.mk ""]).2.buffer.free =
      (BufferPool.get stW.buffer).1 ::
        ({ free := [], next := 1 } : BufferPool).free := by
  have h := html_buffer_pool_success stW freshW 10 200 "index" "D"
    [HTMLOptions.mk ""] { free := [], next := 1 } "XD" rfl (by decide) (by decide)
  exact ⟨rfl, by decide, h.1, h.2.2.1⟩

/-- Lookup skips a prefix in which the key does not occur. -/
theorem lookup_append_none {β : Type} (k : String) (l₁ l₂ : List (String × β))
    (h : List.lookup k l₁ = none) :
    List.lookup k (l₁ ++ l₂) = List.lookup k l₂ := by
  induction l₁ with
  | nil => simp
  | cons p t ih =>
    rcases p with ⟨pk, pv⟩
    by_cases hp : k = pk
    · subst hp
      simp [List.lookup] at h
    · have hb : (k == pk) = false := by simp [hp]
      simp only [List.cons_append, List.lookup, hb] at h ⊢
      exact ih h

/-- Lookup never invents entries: a hit is a member of the list. -/
theorem lookup_mem {β : Type} (k : String) (l : List (String × β)) (v : β)
    (h : List.lookup k l = some v) : (k, v) ∈ l := by
  induction l with
  | nil => simp [List.lookup] at h
  | cons p t ih =>
    rcases p with ⟨pk, pv⟩
    by_cases hp : k = pk
    · subst hp
      simp [List.lookup] at h
      simp [h]
    · have hb : (k == pk) = false := by simp [hp]
      simp only [List.lookup, hb] at h
      exact List.mem_cons_of_mem _ (ih h)

/-- Lookup misses when no entry carries the key. -/
theorem lookup_none_of_forall {β : Type} (k : String) (l : List (String × β))
    (h : ∀ p ∈ l, p.1 ≠ k) : List.lookup k l = none := by
  induction l with
  | nil => simp
  | cons p t ih =>
    rcases p with ⟨pk, pv⟩
    have hp : k ≠ pk := fun he => (h (pk, pv) (List.mem_cons_self _ _)) he.symm
    have hb : (k == pk) = false := by simp [hp]
    simp only [List.lookup, hb]
    exact ih fun q hq => h q (List.mem_cons_of_mem _ hq)

/-- The entry filterMap produces for one walked file. -/
def walkEntry (options : Options) (sep : Char) (pc : String × List Node) :
    Option (String × List Node) :=
  if options.Extensions.contains (getExt pc.1) then
    some (derivedName sep pc.1, pc.2)
  else none

/-- Folding the walk callback accumulates exactly the matching files,
most recent first, in front of the accumulator. -/
theorem foldl_parseStep_templates (options : Options) (sep : Char) :
    ∀ (files : List (String × List Node)) (t : TemplateSet),
      (files.foldl (parseStep options sep) t).templates =
        (files.filterMap (walkEntry options sep)).reverse ++ t.templates := by
  intro files
  induction files with
  | nil => intro t; simp
  | cons pc rest ih =>
    intro t
    by_cases hm : getExt pc.1 ∈ options.Extensions
    · simp [parseStep, walkEntry, hm, ih, derivedName, List.filterMap_cons]
    · simp [parseStep, walkEntry, hm, ih, List.filterMap_cons]

/-- The compiled set holds exactly the matching files' entries. -/
theorem createTemplate_templates (options : Options) (sep : Char)
    (files : List (String × List Node)) :
    (createTemplate options sep files).templates =
      (files.filterMap (walkEntry options sep)).reverse := by
  simp [createTemplate, foldl_parseStep_templates]

/-- C8 counterexample: with extensions .tmpl and .html both configured,
the walked files a.html and a.tmpl both match and derive the same
template name a, and the later-walked a.tmpl overwrites the entry — so
the matching file a.html is not present in the set under its derived
name, contrary to the claim as stated. -/
theorem createTemplate_collision :
    ({ emptyOptions with Extensions := [".tmpl", ".html"] } :
        Options).Extensions.contains (getExt "a.html") = true ∧
    derivedName '/' "a.html" = "a" ∧
    List.lookup (derivedName '/' "a.html")
      (createTemplate { emptyOptions with Extensions := [".tmpl", ".html"] } '/'
        [("a.html", [Node.text "one"]), ("a.tmpl", [Node.text "two"])]).templates ≠
      some [Node.text "one"] := by decide

/-- C8 (amended): after construction, every walked file whose extension —
the substring after the first dot of its relative path — equals a
configured extension is present in the set under its derived name (the
relative path with that extension stripped and separators normalized)
provided no later-walked matching file derives the same name (the last
one wins otherwise); conversely every name bound in the set comes from
some matching walked file, so every file with a non-matching extension is
skipped. -/
theorem createTemplate_spec (options : Options) (sep : Char)
    (pre post : List (String × List Node)) (p : String) (body : List Node)
    (hmatch : options.Extensions.contains (getExt p) = true)
    (hlater : ∀ q bq, (q, bq) ∈ post →
        options.Extensions.contains (getExt q) = true →
        derivedName sep q ≠ derivedName sep p) :
    List.lookup (derivedName sep p)
      (createTemplate options sep (pre ++ (p, body) :: post)).templates =
      some body ∧
    (∀ (files : List (String × List Node)) (nm : String) (b : List Node),
       List.lookup nm (createTemplate options sep files).templates = some b →
       ∃ q, (q, b) ∈ files ∧ options.Extensions.contains (getExt q) = true ∧
         derivedName sep q = nm) := by
  constructor
  · have hrev : (createTemplate options sep (pre ++ (p, body) :: post)).templates
        = (List.filterMap (walkEntry options sep) post).reverse ++
          ((derivedName sep p, body) ::
            (List.filterMap (walkEntry options sep) pre).reverse) := by
      have hmem : getExt p ∈ options.Extensions := by simpa using hmatch
      rw [createTemplate_templates]
      simp [List.filterMap_append, List.filterMap_cons, walkEntry, hmem,
            List.reverse_append]
    rw [hrev, lookup_append_none]
    · simp [List.lookup]
    · apply lookup_none_of_forall
      intro q hq
      rw [List.mem_reverse, List.mem_filterMap] at hq
      obtain ⟨pc, hpc, hwe⟩ := hq
      by_cases hc : getExt pc.1 ∈ options.Extensions
      · have hcb : options.Extensions.contains (getExt pc.1) = true := by
          simpa using hc
        simp only [walkEntry, hcb, if_true] at hwe
        have hq1 : q.1 = derivedName sep pc.1 := by
          cases hwe
          rfl
        rw [hq1]
        exact hlater pc.1 pc.2 (by simpa using hpc) hcb
      · simp [walkEntry, hc] at hwe
  · intro files nm b hlk
    rw [createTemplate_templates] at hlk
    have hmem := lookup_mem _ _ _ hlk
    rw [List.mem_reverse, List.mem_filterMap] at hmem
    obtain ⟨pc, hpc, hwe⟩ := hmem
    by_cases hc : getExt pc.1 ∈ options.Extensions
    · have hcb : options.Extensions.contains (getExt pc.1) = true := by
        simpa using hc
      simp only [walkEntry, hcb, if_true, Option.some.injEq, Prod.mk.injEq] at hwe
      refine ⟨pc.1, ?_, hcb, hwe.1⟩
      have hb : pc.2 = b := hwe.2
      rw [← hb]
      simpa using hpc
    · simp [walkEntry, hc] at hwe

/-- C8 witness: a matching file with no later name collision is present
under its derived name while a non-matching css file is skipped. -/
theorem createTemplate_spec_witness :
    ({ emptyOptions with Extensions := [".tmpl"] } :
        Options).Extensions.contains (getExt "a.tmpl") = true ∧
    List.lookup (derivedName '/' "a.tmpl")
      (createTemplate { emptyOptions with Extensions := [".tmpl"] } '/'
        ([] ++ ("a.tmpl", [Node.text "one"]) ::
          [("b.css", [Node.text "zz"])])).templates =
      some [Node.text "one"] := by
  refine ⟨by decide, ?_⟩
  refine (createTemplate_spec { emptyOptions with Extensions := [".tmpl"] } '/'
    [] [("b.css", [Node.text "zz"])] "a.tmpl" [Node.text "one"] (by decide) ?_).1
  intro q bq hq hmq
  simp only [List.mem_singleton] at hq
  cases hq
  exact absurd hmq (by decide)

end GoRender
